import Mathlib

/-!
Verification development for the Teacher's Pet Q&A retrieval core.

The Python source is shallowly embedded as executable Lean definitions:

* `chunk_text` (src/db_setup.py, `chunk_text`): the sentence sliding-window
  chunker.  The NLTK sentence splitter is an external collaborator, so the
  embedding takes the already-split sentence list as input; Python's
  `len(s.split())` and `" ".join(l)` are embedded as `pyWordCount` / `pyJoin`,
  and the negative slice `l[-overlap:]` as `pyTail`.
* `rank_chunks_by_similarity` (src/main_call.py): the TF-IDF ranker.  The
  sklearn vectorizer/cosine pipeline is an external library collaborator and
  is passed in as a score function `sim`; the repository's own logic — the
  empty guard and `argsort()[-top_k:][::-1]` followed by list indexing — is
  embedded directly (`argsort` models numpy's ascending argsort, with ties
  resolved stably by index, the behaviour of a stable ascending sort).
* `generate_document_hash` (src/main_call.py, src/summarize.py): hashlib's
  incremental `update` calls digest the concatenation of the UTF-8 encodings
  of name and content; since UTF-8 encoding is injective and concatenation of
  encodings is the encoding of the concatenation, the byte stream is embedded
  as the string `name ++ content` (`documentHashInput`), and SHA-256 itself is
  an external collaborator passed as a function.
* `ingestDocument` / `process_and_ask` (src/server.py): the dedup-lookup /
  insert / chunk-store pipeline of the Flask endpoint, over an explicit
  relational state `Db` that mirrors the sqlite schema of src/db_setup.py
  (`documents.name` and `documents.document_hash` both carry UNIQUE
  constraints).  `process_and_ask` additionally records which core components
  ran, as a `CoreOp` trace.
* `process_pdf`, `fetch_all_chunks`, `insert_metadata` (src/main_call.py,
  src/db_setup.py): the CLI ask-workflow's table accesses, over `CliDb`.
* `handle_prompt` (src/main_call.py) and `generate_summary_stream`
  (src/summarize.py): the fragment-relay loops; the Ollama generator is a
  collaborator passed as a fragment-list producer.
-/

/-! ## Python string primitives -/

/-- Helper for `pyWords`: accumulates the current word (reversed) and the
finished words (reversed). -/
def pyWordsAux (cur : List Char) (acc : List (List Char)) : List Char → List (List Char)
  | [] => if cur = [] then acc.reverse else (cur.reverse :: acc).reverse
  | c :: cs =>
      if c = ' ' ∨ c = '\t' ∨ c = '\n' ∨ c = '\r' then
        if cur = [] then pyWordsAux [] acc cs
        else pyWordsAux [] (cur.reverse :: acc) cs
      else pyWordsAux (c :: cur) acc cs

/-- Python `s.split()` (no argument): the maximal whitespace-free runs of `s`. -/
def pyWords (s : String) : List (List Char) := pyWordsAux [] [] s.data

/-- Python `len(s.split())`: the whitespace-delimited word count used as the
token measure in `chunk_text` (src/db_setup.py line 103). -/
def pyWordCount (s : String) : Nat := (pyWords s).length

/-- Python `l[-overlap:]`: for `overlap = 0` the slice `l[0:]`, i.e. the whole
list; for `overlap ≥ 1` the last `overlap` elements (all of `l` when it is
shorter).  This embeds `current_chunk[-overlap:]` (src/db_setup.py line 106)
and `argsort()[-top_k:]` (src/main_call.py line 87). -/
def pyTail (l : List α) (overlap : Nat) : List α :=
  if overlap = 0 then l else l.drop (l.length - overlap)

/-- Python `" ".join(l)` (src/db_setup.py line 105). -/
def pyJoin (l : List String) : String := ⟨List.intercalate [' '] (l.map String.data)⟩

/-! ## Chunker (src/db_setup.py, `chunk_text`) -/

/-- Loop state of `chunk_text`: emitted chunks (as sentence buffers), the
current sentence buffer, and the running token count. -/
structure ChunkState where
  chunks : List (List String)
  current : List String
  current_length : Nat
deriving DecidableEq, Repr

/-- One iteration of the `for sentence in sentences` loop of `chunk_text`
(src/db_setup.py lines 102-110): if the budget would be exceeded, emit the
buffer (with no non-emptiness check), retain `current_chunk[-overlap:]` and
recompute the running count from the retained tail; then append the sentence
and add its token count. -/
def chunkStep (max_tokens overlap : Nat) (st : ChunkState) (sentence : String) : ChunkState :=
  if max_tokens < st.current_length + pyWordCount sentence then
    { chunks := st.chunks ++ [st.current],
      current := pyTail st.current overlap ++ [sentence],
      current_length := ((pyTail st.current overlap).map pyWordCount).sum + pyWordCount sentence }
  else
    { st with current := st.current ++ [sentence],
              current_length := st.current_length + pyWordCount sentence }

/-- The chunker at the level of sentence buffers: run the loop from the empty
state and flush the final non-empty buffer (src/db_setup.py lines 112-113). -/
def chunkBuffers (sentences : List String) (max_tokens overlap : Nat) : List (List String) :=
  if (sentences.foldl (chunkStep max_tokens overlap) ⟨[], [], 0⟩).current = [] then
    (sentences.foldl (chunkStep max_tokens overlap) ⟨[], [], 0⟩).chunks
  else
    (sentences.foldl (chunkStep max_tokens overlap) ⟨[], [], 0⟩).chunks ++
      [(sentences.foldl (chunkStep max_tokens overlap) ⟨[], [], 0⟩).current]

/-- `chunk_text(text, max_tokens, overlap)` (src/db_setup.py lines 95-115),
taking the sentence list produced by the external sentence splitter. -/
def chunk_text (sentences : List String) (max_tokens overlap : Nat) : List String :=
  (chunkBuffers sentences max_tokens overlap).map pyJoin

/-! ## Ranker (src/main_call.py, `rank_chunks_by_similarity`) -/

/-- The order by which `argsort` sorts index `i` before index `j`: strictly
smaller score, or equal scores with `i ≤ j` (a stable ascending sort keeps
equal keys in index order). -/
def argLE (l : List ℚ) (i j : Nat) : Prop :=
  l.getD i 0 < l.getD j 0 ∨ (l.getD i 0 = l.getD j 0 ∧ i ≤ j)

instance (l : List ℚ) : DecidableRel (argLE l) := fun i j => by
  unfold argLE
  infer_instance

instance (l : List ℚ) : IsTotal Nat (argLE l) := by
  constructor
  intro i j
  unfold argLE
  rcases lt_trichotomy (l.getD i 0) (l.getD j 0) with h | h | h
  · exact Or.inl (Or.inl h)
  · rcases Nat.le_total i j with hij | hij
    · exact Or.inl (Or.inr ⟨h, hij⟩)
    · exact Or.inr (Or.inr ⟨h.symm, hij⟩)
  · exact Or.inr (Or.inl h)

instance (l : List ℚ) : IsTrans Nat (argLE l) := by
  constructor
  intro i j k hij hjk
  unfold argLE at *
  rcases hij with h1 | ⟨h1, h1'⟩ <;> rcases hjk with h2 | ⟨h2, h2'⟩
  · exact Or.inl (h1.trans h2)
  · exact Or.inl (h2 ▸ h1)
  · exact Or.inl (h1 ▸ h2)
  · exact Or.inr ⟨h1.trans h2, h1'.trans h2'⟩

/-- numpy `argsort` over the similarity scores: the index permutation sorting
the scores ascending; equal scores keep their index order (src/main_call.py
line 87).  Embedded as a stable sort of `range` by the lexicographic
(score, index) order `argLE`. -/
def argsort (l : List ℚ) : List Nat :=
  List.insertionSort (argLE l) (List.range l.length)

/-- `cosine_similarities.argsort()[-top_k:][::-1]` (src/main_call.py line 87):
the last `top_k` entries of the ascending argsort, reversed. -/
def rankedIndices (l : List ℚ) (top_k : Nat) : List Nat :=
  (pyTail (argsort l) top_k).reverse

/-- `rank_chunks_by_similarity(query_text, chunks, top_k)` (src/main_call.py
lines 72-90).  The sklearn TF-IDF/cosine pipeline is the external collaborator
`sim`, returning one score per chunk; the repository code guards the empty
candidate list, ranks by `argsort()[-top_k:][::-1]` and indexes back into
`chunks`. -/
def rank_chunks_by_similarity (sim : String → List String → List ℚ)
    (query_text : String) (chunks : List String) (top_k : Nat) : List String :=
  if chunks = [] then []
  else
    let cosine_similarities := sim query_text chunks
    let ranked_indices := rankedIndices cosine_similarities top_k
    ranked_indices.map (fun i => chunks.getD i "")

/-- A similarity collaborator that scores every chunk `1`; used to exhibit
tie behaviour of the ranker on concrete inputs. -/
def simOne : String → List String → List ℚ := fun _ chunks => chunks.map (fun _ => (1 : ℚ))

/-! ## Fingerprinter (src/main_call.py / src/summarize.py, `generate_document_hash`) -/

/-- The byte stream fed to SHA-256 by `generate_document_hash`: the two
`hasher.update` calls digest `utf8(name) ++ utf8(content)` with no separator;
since UTF-8 encoding is injective and compatible with concatenation, the
stream is represented by the string `name ++ content`. -/
def documentHashInput (document_name content : String) : String :=
  document_name ++ content

/-- `generate_document_hash(document_name, content)` (src/main_call.py lines
27-32): SHA-256 (the external `hashlib` collaborator `sha256`) of the
concatenated encodings of name and content. -/
def generate_document_hash (sha256 : String → String) (document_name content : String) : String :=
  sha256 (documentHashInput document_name content)

/-! ## Storage model (schema of src/db_setup.py, `init_db`) -/

/-- A row of the `documents` table: `id`, `name` (UNIQUE), `document_hash`
(UNIQUE).  The timestamp column plays no role in any claim. -/
structure DocRow where
  id : Nat
  name : String
  document_hash : String
deriving DecidableEq, Repr

/-- The sqlite state used by the server workflow: the `documents` table, the
`chunks` table (rows `(document_id, chunk)`), and the AUTOINCREMENT counter. -/
structure Db where
  documents : List DocRow
  chunks : List (Nat × String)
  next_id : Nat
deriving DecidableEq, Repr

/-- `INSERT INTO documents (name, document_hash) VALUES (?, ?)` (src/server.py
lines 60-63) against the schema of src/db_setup.py lines 16-23: the insert
fails with a sqlite UNIQUE-constraint error if the name or the hash already
occurs; otherwise the row is appended and `lastrowid` returned. -/
def insertDocument (db : Db) (name document_hash : String) : Except String (Db × Nat) :=
  if db.documents.any (fun d => d.name = name) then
    .error "UNIQUE constraint failed: documents.name"
  else if db.documents.any (fun d => d.document_hash = document_hash) then
    .error "UNIQUE constraint failed: documents.document_hash"
  else
    .ok ({ db with documents := db.documents ++ [⟨db.next_id, name, document_hash⟩],
                   next_id := db.next_id + 1 }, db.next_id)

/-- The ingestion part of `process_and_ask` (src/server.py lines 49-68): look
the document up by content hash; if present reuse its id and change nothing;
otherwise insert the document row and store the chunks of the extracted text
(`process_pdf` uses `chunk_text(text, max_tokens=500, overlap=50)`).  The
sentence splitter and SHA-256 are the external collaborators `sentSplit` and
`sha256`. -/
def ingestDocument (sha256 : String → String) (sentSplit : String → List String)
    (db : Db) (name content : String) : Except String (Db × Nat) :=
  match db.documents.find? (fun d => d.document_hash = generate_document_hash sha256 name content) with
  | some existing => .ok (db, existing.id)
  | none =>
      match insertDocument db name (generate_document_hash sha256 name content) with
      | .error e => .error e
      | .ok (db1, document_id) =>
          .ok ({ db1 with chunks := db1.chunks ++
                   (chunk_text (sentSplit content) 500 50).map (fun c => (document_id, c)) },
               document_id)

/-! ## Streaming (src/main_call.py `handle_prompt`, src/summarize.py `generate_summary`) -/

/-- The prompt built by `handle_prompt` from its template (whitespace
normalised; the exact text is irrelevant to every claim). -/
def handle_prompt_template (context question : String) : String :=
  "Answer the question based only on the following context: " ++ context ++
    " --- Answer the question based on the above context: " ++ question

/-- `handle_prompt` (src/main_call.py lines 94-116): builds the prompt, relays
every fragment produced by the generator collaborator `gen` to stdout in
order, and falls off the end of the function — so its return value is Python's
`None`.  Result: (fragments written to the sink, returned value). -/
def handle_prompt (gen : String → List String) (query_text context_text : String) :
    List String × Option String :=
  let prompt := handle_prompt_template context_text query_text
  let written := (gen prompt).foldl (fun acc part => acc ++ [part]) []
  (written, none)

/-- The streaming loop of `generate_summary` (src/summarize.py lines 215-223):
relays each fragment and accumulates `final_summary += part`, returning the
accumulated text.  Result: (fragments written to the sink, returned text). -/
def generate_summary_stream (fragments : List String) : List String × String :=
  fragments.foldl (fun acc part => (acc.1 ++ [part], acc.2 ++ part)) ([], "")

/-! ## HTTP endpoint (src/server.py, `process_and_ask`) -/

/-- The core components whose execution the endpoint model records. -/
inductive CoreOp
  | extractText
  | fingerprint
  | chunkOp
  | storageRead
  | storageWrite
deriving DecidableEq, Repr

/-- An incoming multipart request: the uploaded file (name and the text the
extraction collaborator would yield for it) and the `question` form field. -/
structure HttpRequest where
  file : Option (String × String)
  question : Option String
deriving DecidableEq, Repr

/-- The possible responses of the endpoint. -/
inductive ServerResponse
  | clientError (code : Nat) (msg : String)
  | notFound (msg : String)
  | serverError (msg : String)
  | ok (response : Option String)
deriving DecidableEq, Repr

/-- The ranking/answer half of the endpoint (src/server.py lines 74-86):
404 when no chunks exist, otherwise rank with `top_k=5`, join the ranked
chunks into the context and put `handle_prompt`'s return value into the JSON
response. -/
def answerFromChunks (sim : String → List String → List ℚ) (gen : String → List String)
    (db : Db) (ops : List CoreOp) (chunks : List String) (question : String) :
    ServerResponse × List CoreOp × Db :=
  if chunks = [] then (.notFound "No chunks found for this document.", ops, db)
  else
    let ranked_chunks := rank_chunks_by_similarity sim question chunks 5
    let context_text := pyJoin ranked_chunks
    let response := (handle_prompt gen question context_text).2
    (.ok response, ops, db)

/-- `process_and_ask` (src/server.py lines 29-86).  `request.files['file']` is
read first (a missing file is a 400 from the framework), then the question is
validated (`if not query`), and only then do extraction, fingerprinting, the
dedup lookup, the conditional insert-and-chunk, the chunk fetch, ranking and
generation run; the `CoreOp` trace records them in order.  Collaborators:
`sha256`, the sentence splitter `sentSplit`, the similarity scorer `sim`, the
generator `gen`. -/
def process_and_ask (sha256 : String → String) (sentSplit : String → List String)
    (sim : String → List String → List ℚ) (gen : String → List String)
    (db : Db) (req : HttpRequest) : ServerResponse × List CoreOp × Db :=
  match req.file with
  | none => (.clientError 400 "Bad Request: missing file part.", [], db)
  | some (filename, fileText) =>
      match req.question with
      | none => (.clientError 400 "Missing question parameter.", [], db)
      | some q =>
          if q = "" then (.clientError 400 "Missing question parameter.", [], db)
          else
            let extracted_text := fileText
            let document_hash := generate_document_hash sha256 filename extracted_text
            match db.documents.find? (fun d => d.document_hash = document_hash) with
            | some existing =>
                let document_id := existing.id
                let chunks := (db.chunks.filter (fun rc => rc.1 = document_id)).map (fun rc => rc.2)
                answerFromChunks sim gen db
                  [.extractText, .fingerprint, .storageRead, .storageRead] chunks q
            | none =>
                match insertDocument db filename document_hash with
                | .error e =>
                    (.serverError e, [.extractText, .fingerprint, .storageRead, .storageWrite], db)
                | .ok (db1, document_id) =>
                    let db2 := { db1 with chunks := db1.chunks ++
                      (chunk_text (sentSplit extracted_text) 500 50).map (fun c => (document_id, c)) }
                    let chunks := (db2.chunks.filter (fun rc => rc.1 = document_id)).map (fun rc => rc.2)
                    answerFromChunks sim gen db2
                      [.extractText, .fingerprint, .storageRead, .storageWrite, .chunkOp,
                        .storageWrite, .storageRead] chunks q

/-! ## CLI ask-workflow tables (src/main_call.py, src/db_setup.py) -/

/-- The two chunk-bearing tables touched by the CLI workflow: `chunks`
(rows `(document_id, chunk)`) and `embeddings` (rows
`(document_id, chunk, section, page, tables)`). -/
structure CliDb where
  chunksTable : List (Nat × String)
  embeddingsTable : List (Nat × String × String × Nat × String)
deriving DecidableEq, Repr

/-- `process_pdf` (src/main_call.py lines 34-53): chunk the extracted text
with `max_tokens=500, overlap=50` and insert every chunk into the `chunks`
table. -/
def process_pdf (sentSplit : String → List String) (db : CliDb)
    (extracted_text : String) (document_id : Nat) : CliDb :=
  { db with chunksTable := db.chunksTable ++
      (chunk_text (sentSplit extracted_text) 500 50).map (fun c => (document_id, c)) }

/-- `fetch_all_chunks` (src/main_call.py lines 64-69): `SELECT chunk FROM
embeddings` — it reads only the `embeddings` table. -/
def fetch_all_chunks (db : CliDb) : List String :=
  db.embeddingsTable.map (fun r => r.2.1)

/-- `insert_metadata` (src/db_setup.py lines 60-76): the only writer of the
`embeddings` table. -/
def insert_metadata (db : CliDb) (chunk sectionName : String) (page : Nat)
    (tablesJson : String) (document_id : Nat) : CliDb :=
  { db with embeddingsTable := db.embeddingsTable ++
      [(document_id, chunk, sectionName, page, tablesJson)] }

/-! ## Helper lemmas: chunker loop invariants -/

/-- The buffer is never empty after a loop iteration: the sentence just
processed is always appended. -/
theorem chunkStep_current_ne (mt ov : Nat) (st : ChunkState) (s : String) :
    (chunkStep mt ov st s).current ≠ [] := by
  unfold chunkStep
  split <;> simp

/-- The emitted-chunk list of one loop iteration. -/
theorem chunkStep_chunks (mt ov : Nat) (st : ChunkState) (s : String) :
    (chunkStep mt ov st s).chunks =
      if mt < st.current_length + pyWordCount s then st.chunks ++ [st.current] else st.chunks := by
  unfold chunkStep
  split <;> rfl

/-- The buffer after one loop iteration. -/
theorem chunkStep_current (mt ov : Nat) (st : ChunkState) (s : String) :
    (chunkStep mt ov st s).current =
      (if mt < st.current_length + pyWordCount s then pyTail st.current ov else st.current) ++ [s] := by
  unfold chunkStep
  split <;> simp

/-- Running the loop only appends chunks, and every chunk appended while the
buffer is non-empty is itself non-empty; the buffer stays non-empty. -/
theorem foldl_chunkStep_chunks (mt ov : Nat) :
    ∀ (l : List String) (st : ChunkState), st.current ≠ [] →
      ∃ t, (l.foldl (chunkStep mt ov) st).chunks = st.chunks ++ t
        ∧ (∀ b ∈ t, b ≠ [])
        ∧ (l.foldl (chunkStep mt ov) st).current ≠ []
  | [], st, h => ⟨[], by simp, by simp, h⟩
  | s :: l, st, h => by
      have hcur := chunkStep_current_ne mt ov st s
      obtain ⟨t, ht, htne, hfin⟩ := foldl_chunkStep_chunks mt ov l (chunkStep mt ov st s) hcur
      rw [List.foldl_cons]
      rw [chunkStep_chunks] at ht
      by_cases hc : mt < st.current_length + pyWordCount s
      · rw [if_pos hc] at ht
        refine ⟨st.current :: t, ?_, ?_, hfin⟩
        · rw [ht]
          simp
        · intro b hb
          rcases List.mem_cons.mp hb with rfl | hb'
          · exact h
          · exact htne b hb'
      · rw [if_neg hc] at ht
        exact ⟨t, ht, htne, hfin⟩

/-- The seeding relation between consecutive flushed buffers: the later buffer
starts with the retained `current_chunk[-overlap:]` tail of the earlier one. -/
def seededBy (ov : Nat) (b b' : List String) : Prop :=
  ∃ suf, b' = pyTail b ov ++ suf

/-- One loop iteration preserves the seeding chain over
`emitted chunks ++ [current buffer]`. -/
theorem chunkStep_chain (mt ov : Nat) (st : ChunkState) (s : String)
    (h : List.Chain' (seededBy ov) (st.chunks ++ [st.current])) :
    List.Chain' (seededBy ov)
      ((chunkStep mt ov st s).chunks ++ [(chunkStep mt ov st s).current]) := by
  obtain ⟨h1, h2, h3⟩ := List.chain'_append.mp h
  rw [chunkStep_chunks, chunkStep_current]
  by_cases hc : mt < st.current_length + pyWordCount s
  · rw [if_pos hc, if_pos hc, List.append_assoc]
    refine List.chain'_append.mpr ⟨h1, ?_, ?_⟩
    · exact List.chain'_pair.mpr ⟨[s], rfl⟩
    · intro x hx y hy
      simp only [List.singleton_append, List.head?_cons, Option.mem_def, Option.some.injEq] at hy
      subst hy
      exact h3 x hx st.current (by simp)
  · rw [if_neg hc, if_neg hc]
    refine List.chain'_append.mpr ⟨h1, List.chain'_singleton _, ?_⟩
    intro x hx y hy
    simp only [List.head?_cons, Option.mem_def, Option.some.injEq] at hy
    subst hy
    obtain ⟨suf, hsuf⟩ := h3 x hx st.current (by simp)
    exact ⟨suf ++ [s], by rw [hsuf, List.append_assoc]⟩

/-- The whole loop preserves the seeding chain. -/
theorem foldl_chunkStep_chain (mt ov : Nat) :
    ∀ (l : List String) (st : ChunkState),
      List.Chain' (seededBy ov) (st.chunks ++ [st.current]) →
      List.Chain' (seededBy ov)
        ((l.foldl (chunkStep mt ov) st).chunks ++ [(l.foldl (chunkStep mt ov) st).current])
  | [], _, h => h
  | s :: l, st, h => foldl_chunkStep_chain mt ov l (chunkStep mt ov st s) (chunkStep_chain mt ov st s h)

/-- Consecutive chunk buffers are linked by the seeding relation. -/
theorem chunkBuffers_chain (sentences : List String) (mt ov : Nat) :
    List.Chain' (seededBy ov) (chunkBuffers sentences mt ov) := by
  have h := foldl_chunkStep_chain mt ov sentences ⟨[], [], 0⟩
    (by simp)
  unfold chunkBuffers
  split
  · exact (List.chain'_append.mp h).1
  · exact h

/-- `pyTail` with slice length `0` is the whole list (Python `l[-0:] = l[0:]`). -/
theorem pyTail_zero (l : List α) : pyTail l 0 = l := by
  simp [pyTail]

/-- `pyTail` with a positive slice length is the last-`k` suffix. -/
theorem pyTail_of_pos (l : List α) (k : Nat) (h : 1 ≤ k) :
    pyTail l k = l.drop (l.length - k) := by
  unfold pyTail
  rw [if_neg (by omega)]

/-- Length of the positive-`k` suffix. -/
theorem length_pyTail_of_pos (l : List α) (k : Nat) (h : 1 ≤ k) :
    (pyTail l k).length = min k l.length := by
  rw [pyTail_of_pos l k h, List.length_drop]
  omega

/-- Splitting a cons input: the chunker output is the chunks emitted by the
first iteration followed by buffers that are all non-empty. -/
theorem chunkBuffers_cons_eq (mt ov : Nat) (s : String) (rest : List String) :
    ∃ t, chunkBuffers (s :: rest) mt ov = (chunkStep mt ov ⟨[], [], 0⟩ s).chunks ++ t
      ∧ ∀ b ∈ t, b ≠ [] := by
  obtain ⟨t, ht, htne, hfin⟩ := foldl_chunkStep_chunks mt ov rest (chunkStep mt ov ⟨[], [], 0⟩ s)
    (chunkStep_current_ne mt ov ⟨[], [], 0⟩ s)
  refine ⟨t ++ [(List.foldl (chunkStep mt ov) (chunkStep mt ov ⟨[], [], 0⟩ s) rest).current],
    ?_, ?_⟩
  · unfold chunkBuffers
    rw [List.foldl_cons, if_neg hfin, ht, List.append_assoc]
  · intro b hb
    rcases List.mem_append.mp hb with hb' | hb'
    · exact htne b hb'
    · simp only [List.mem_singleton] at hb'
      subst hb'
      exact hfin

/-- Claim C1 counterexample: `chunk_text` flushes the buffer with no
non-emptiness check, so when the first sentence alone exceeds `max_tokens`
(here "a b", two words, budget 1) the returned chunk list starts with the
empty string — refuting "no returned chunk is the empty string". -/
theorem chunk_text_empty_chunk_cex :
    chunk_text ["a b"] 1 1 = ["", "a b"] ∧ "" ∈ chunk_text ["a b"] 1 1 := by
  decide

/-- Claim C1 (amended): the flush at `running_count + sentence_token_count >
max_tokens` is unconditional; the flushed buffer is empty only before the
first sentence, so when the first sentence alone exceeds `max_tokens` the
first returned chunk is the empty string, and otherwise every emitted buffer
is non-empty. -/
theorem chunk_text_flush_amended (mt ov : Nat) (s : String) (rest : List String) :
    (mt < pyWordCount s →
      (chunk_text (s :: rest) mt ov).head? = some ""
      ∧ ∃ t, chunkBuffers (s :: rest) mt ov = [] :: t ∧ ∀ b ∈ t, b ≠ [])
    ∧ (pyWordCount s ≤ mt → ∀ b ∈ chunkBuffers (s :: rest) mt ov, b ≠ []) := by
  obtain ⟨t, ht, htne⟩ := chunkBuffers_cons_eq mt ov s rest
  constructor
  · intro h
    have hch : (chunkStep mt ov ⟨[], [], 0⟩ s).chunks = [[]] := by
      rw [chunkStep_chunks, if_pos (by simpa using h)]
      rfl
    rw [hch] at ht
    refine ⟨?_, t, by simpa using ht, htne⟩
    unfold chunk_text
    rw [ht]
    simp only [List.singleton_append, List.map_cons, List.head?_cons]
    rfl
  · intro h
    have hch : (chunkStep mt ov ⟨[], [], 0⟩ s).chunks = [] := by
      rw [chunkStep_chunks, if_neg (by simp; omega)]
    rw [hch, List.nil_append] at ht
    intro b hb
    exact htne b (ht ▸ hb)

/-- Claim C1 witness: concrete instances discharging both hypotheses of the
amended flush theorem. -/
theorem chunk_text_flush_amended_w :
    (chunk_text ["a b"] 1 1).head? = some "" ∧ (["a"] : List String) ≠ [] :=
  ⟨((chunk_text_flush_amended 1 1 "a b" []).1 (by decide)).1,
   (chunk_text_flush_amended 1 1 "a" []).2 (by decide) ["a"] (by decide)⟩

/-- Claim C3 counterexample: with `overlap = 0` the Python slice
`current_chunk[-0:]` keeps the whole buffer, not nothing: chunking
["a", "b"] with budget 1 yields ["a", "a b"] — the second chunk still starts
with the whole previous chunk, where the claim demands an empty seed (which
would yield ["a", "b"]). -/
theorem chunk_text_overlap_zero_cex :
    chunk_text ["a", "b"] 1 0 = ["a", "a b"]
    ∧ chunk_text ["a", "b"] 1 0 ≠ ["a", "b"]
    ∧ pyTail (["a"] : List String) 0 ≠ [] := by
  decide

/-- Claim C3 (amended): after a flush the chunker seeds the next buffer with
`current_chunk[-overlap:]` — the last `overlap` sentences for `overlap ≥ 1`
(all of the buffer when it is shorter), but the ENTIRE buffer for
`overlap = 0` — and recomputes the running count from that tail; consecutive
chunk buffers are linked by this seeding, so each chunk after the first
begins with the retained tail of its predecessor. -/
theorem chunk_text_overlap_amended (sentences : List String) (mt ov : Nat) :
    List.Chain' (seededBy ov) (chunkBuffers sentences mt ov)
    ∧ List.Chain' (fun b b' => b'.take (pyTail b ov).length = pyTail b ov)
        (chunkBuffers sentences mt ov)
    ∧ (∀ b : List String, pyTail b 0 = b)
    ∧ (∀ (b : List String) (k : Nat), 1 ≤ k →
        pyTail b k = b.drop (b.length - k) ∧ (pyTail b k).length = min k b.length) := by
  refine ⟨chunkBuffers_chain sentences mt ov, ?_, pyTail_zero,
    fun b k hk => ⟨pyTail_of_pos b k hk, length_pyTail_of_pos b k hk⟩⟩
  refine List.Chain'.imp ?_ (chunkBuffers_chain sentences mt ov)
  rintro b b' ⟨suf, hsuf⟩
  rw [hsuf]
  exact List.take_left _ _

/-- Claim C3 witness: the positive-overlap tail characterisation at a
concrete buffer. -/
theorem chunk_text_overlap_amended_w :
    pyTail (["x", "y"] : List String) 1
        = (["x", "y"] : List String).drop ((["x", "y"] : List String).length - 1)
    ∧ (pyTail (["x", "y"] : List String) 1).length = min 1 (["x", "y"] : List String).length :=
  (chunk_text_overlap_amended [] 0 0).2.2.2 ["x", "y"] 1 (by decide)

/-! ## Helper lemmas: argsort -/

/-- `argsort` is a permutation of the score indices, so it has their length. -/
theorem argsort_length (l : List ℚ) : (argsort l).length = l.length := by
  unfold argsort
  rw [(List.perm_insertionSort (argLE l) (List.range l.length)).length_eq, List.length_range]

/-- `argsort` output is sorted by the lexicographic (score, index) order. -/
theorem argsort_sorted (l : List ℚ) : List.Pairwise (argLE l) (argsort l) :=
  List.sorted_insertionSort (argLE l) (List.range l.length)

/-- `argsort` output has no duplicate indices. -/
theorem argsort_nodup (l : List ℚ) : (argsort l).Nodup :=
  ((List.perm_insertionSort (argLE l) (List.range l.length)).symm).nodup (List.nodup_range _)

/-- Claim C2 counterexample: with `top_k = 0` the slice `argsort()[-0:]` is
the whole index array, so the ranker returns every candidate instead of the
empty sequence the claim requires (`min(0, 1) = 0` entries). -/
theorem rank_top_k_zero_cex :
    rank_chunks_by_similarity simOne "aa" ["aa"] 0 = ["aa"]
    ∧ rank_chunks_by_similarity simOne "aa" ["aa"] 0 ≠ [] := by
  decide

/-- Claim C2 (amended): for `top_k ≥ 1` the ranker returns exactly the first
`min(top_k, len(candidates))` entries of the similarity-sorted order (the
order produced with `top_k = len(candidates)`), and `rank(q, [], k)` is
empty; but for `top_k = 0` it returns the WHOLE similarity-sorted order
(Python slice `[-0:]`), not the empty sequence. -/
theorem rank_top_k_amended (sim : String → List String → List ℚ) (q : String)
    (chunks : List String) (k : Nat)
    (hlen : (sim q chunks).length = chunks.length) :
    rank_chunks_by_similarity sim q chunks 0
        = rank_chunks_by_similarity sim q chunks chunks.length
    ∧ (1 ≤ k →
        rank_chunks_by_similarity sim q chunks k
            = (rank_chunks_by_similarity sim q chunks chunks.length).take k
        ∧ (rank_chunks_by_similarity sim q chunks k).length = min k chunks.length)
    ∧ rank_chunks_by_similarity sim q [] k = [] := by
  by_cases hne : chunks = []
  · subst hne
    simp [rank_chunks_by_similarity]
  · have hn : 1 ≤ chunks.length := List.length_pos.mpr hne
    have hp : (argsort (sim q chunks)).length = chunks.length := by
      rw [argsort_length, hlen]
    have hfull : pyTail (argsort (sim q chunks)) chunks.length = argsort (sim q chunks) := by
      rw [pyTail_of_pos _ _ hn, hp, Nat.sub_self, List.drop_zero]
    refine ⟨?_, ?_, by simp [rank_chunks_by_similarity]⟩
    · simp only [rank_chunks_by_similarity, if_neg hne, rankedIndices]
      rw [pyTail_zero, hfull]
    · intro hk
      constructor
      · simp only [rank_chunks_by_similarity, if_neg hne, rankedIndices]
        rw [hfull, pyTail_of_pos _ _ hk, List.reverse_drop, ← List.map_take]
        congr 1
        rcases Nat.le_total k (argsort (sim q chunks)).length with hle | hle
        · congr 1
          omega
        · rw [List.take_of_length_le (by simp; omega),
            List.take_of_length_le (by simpa using hle)]
      · simp only [rank_chunks_by_similarity, if_neg hne, rankedIndices]
        rw [List.length_map, List.length_reverse, length_pyTail_of_pos _ _ hk, hp]

/-- Claim C2 witness: the amended ranking boundary at concrete inputs. -/
theorem rank_top_k_amended_w :
    rank_chunks_by_similarity simOne "aa" ["aa", "bb"] 0
        = rank_chunks_by_similarity simOne "aa" ["aa", "bb"] 2
    ∧ (rank_chunks_by_similarity simOne "aa" ["aa", "bb"] 1
          = (rank_chunks_by_similarity simOne "aa" ["aa", "bb"] 2).take 1
        ∧ (rank_chunks_by_similarity simOne "aa" ["aa", "bb"] 1).length = min 1 2)
    ∧ rank_chunks_by_similarity simOne "aa" [] 1 = [] := by
  have h := rank_top_k_amended simOne "aa" ["aa", "bb"] 1 (by decide)
  exact ⟨h.1, h.2.1 (by decide), h.2.2⟩

/-- Claim C6 counterexample: two candidates with equal similarity scores come
back in REVERSED original order — `[::-1]` applied to the stable ascending
argsort puts the later tied candidate first — refuting "break ties by
original candidate order". -/
theorem rank_tiebreak_cex :
    simOne "q" ["aa", "bb"] = [1, 1]
    ∧ rank_chunks_by_similarity simOne "q" ["aa", "bb"] 5 = ["bb", "aa"]
    ∧ rank_chunks_by_similarity simOne "q" ["aa", "bb"] 5 ≠ ["aa", "bb"] := by
  decide

/-- Claim C6 (amended): the ranker output is ordered by strictly descending
similarity, and ties between equal-scoring candidates come out in DESCENDING
original candidate order (the reversal of the stable ascending argsort);
determinism holds since the ranking is a pure function of its inputs. -/
theorem rank_tiebreak_amended (sims : List ℚ) (k : Nat) :
    List.Pairwise
      (fun i j => sims.getD j 0 < sims.getD i 0 ∨ (sims.getD i 0 = sims.getD j 0 ∧ j < i))
      (rankedIndices sims k)
    ∧ ∀ (sim : String → List String → List ℚ) (q : String) (chunks : List String) (k' : Nat),
        chunks ≠ [] →
        rank_chunks_by_similarity sim q chunks k'
          = (rankedIndices (sim q chunks) k').map (fun i => chunks.getD i "") := by
  constructor
  · have hsorted : List.Pairwise (argLE sims) (argsort sims) := argsort_sorted sims
    have hnodup : List.Pairwise (fun i j => i ≠ j) (argsort sims) := argsort_nodup sims
    have hstrict : List.Pairwise
        (fun i j => sims.getD i 0 < sims.getD j 0 ∨ (sims.getD i 0 = sims.getD j 0 ∧ i < j))
        (argsort sims) := by
      refine List.Pairwise.imp ?_ (hsorted.and hnodup)
      rintro a b ⟨hab, hne⟩
      rcases hab with h | ⟨h, hle⟩
      · exact Or.inl h
      · exact Or.inr ⟨h, lt_of_le_of_ne hle hne⟩
    have htail : List.Pairwise
        (fun i j => sims.getD i 0 < sims.getD j 0 ∨ (sims.getD i 0 = sims.getD j 0 ∧ i < j))
        (pyTail (argsort sims) k) := by
      unfold pyTail
      split
      · exact hstrict
      · exact hstrict.drop
    unfold rankedIndices
    rw [List.pairwise_reverse]
    refine List.Pairwise.imp ?_ htail
    rintro a b (h | ⟨h, hlt⟩)
    · exact Or.inl h
    · exact Or.inr ⟨h.symm, hlt⟩
  · intro sim q chunks k' hne
    simp [rank_chunks_by_similarity, hne, rankedIndices]

/-- Claim C6 witness: the definitional link between the ranker and its index
pipeline at a concrete non-empty candidate list. -/
theorem rank_tiebreak_amended_w :
    rank_chunks_by_similarity simOne "q" ["aa"] 3
      = (rankedIndices (simOne "q" ["aa"]) 3).map (fun i => (["aa"] : List String).getD i "") :=
  (rank_tiebreak_amended [] 0).2 simOne "q" ["aa"] 3 (by decide)

/-! ## Claims about ingestion, streaming, the endpoint and the CLI tables -/

/-- Claim C5: ingesting the same (name, content) twice in sequence: the second
ingestion finds the stored document by its content hash, reuses the first
ingestion's document id, and leaves the database unchanged — no additional
document row and no additional chunk rows. -/
theorem ingest_idempotent (sha256 : String → String) (sentSplit : String → List String)
    (db db1 : Db) (name content : String) (id1 : Nat)
    (h : ingestDocument sha256 sentSplit db name content = .ok (db1, id1)) :
    (db1.documents.find?
        (fun d => d.document_hash = generate_document_hash sha256 name content)).isSome
    ∧ ingestDocument sha256 sentSplit db1 name content = .ok (db1, id1) := by
  unfold ingestDocument at h ⊢
  cases hfind : db.documents.find?
      (fun d => d.document_hash = generate_document_hash sha256 name content) with
  | some existing =>
      rw [hfind] at h
      rw [Except.ok.injEq, Prod.mk.injEq] at h
      obtain ⟨rfl, rfl⟩ := h
      rw [hfind]
      exact ⟨rfl, rfl⟩
  | none =>
      rw [hfind] at h
      cases hins : insertDocument db name (generate_document_hash sha256 name content) with
      | error e =>
          rw [hins] at h
          exact absurd h (by simp)
      | ok p =>
          obtain ⟨db2, docId⟩ := p
          rw [hins] at h
          rw [Except.ok.injEq, Prod.mk.injEq] at h
          obtain ⟨rfl, rfl⟩ := h
          unfold insertDocument at hins
          split at hins
          · exact absurd hins (by simp)
          · split at hins
            · exact absurd hins (by simp)
            · rw [Except.ok.injEq, Prod.mk.injEq] at hins
              obtain ⟨rfl, rfl⟩ := hins
              have hfind2 : ({ db with
                    documents := db.documents ++
                      [⟨db.next_id, name, generate_document_hash sha256 name content⟩],
                    next_id := db.next_id + 1 } : Db).documents.find?
                  (fun d => d.document_hash = generate_document_hash sha256 name content)
                  = some ⟨db.next_id, name, generate_document_hash sha256 name content⟩ := by
                rw [List.find?_append, hfind]
                simp [List.find?]
              rw [hfind2]
              exact ⟨rfl, rfl⟩

/-- Claim C5 witness: a concrete double ingestion into the empty database,
with identity stand-ins for the hash and sentence-splitter collaborators. -/
theorem ingest_idempotent_w :
    ((⟨[⟨0, "doc", "dochello"⟩], [(0, "hello")], 1⟩ : Db).documents.find?
        (fun d => d.document_hash = generate_document_hash (fun s => s) "doc" "hello")).isSome
    ∧ ingestDocument (fun s => s) (fun s => [s]) ⟨[⟨0, "doc", "dochello"⟩], [(0, "hello")], 1⟩
        "doc" "hello"
      = .ok (⟨[⟨0, "doc", "dochello"⟩], [(0, "hello")], 1⟩, 0) :=
  ingest_idempotent (fun s => s) (fun s => [s]) ⟨[], [], 0⟩
    ⟨[⟨0, "doc", "dochello"⟩], [(0, "hello")], 1⟩ "doc" "hello" 0 rfl

/-- Claim C7 counterexample: the content hash is NOT the sole gate on
ingestion — the `documents.name` UNIQUE constraint can block it.  A stored
document named "doc" with hash "X"; ingesting "doc" with new content has a
fresh hash ("docnew" ≠ "X"), yet the insert fails on the name constraint. -/
theorem ingest_name_blocks_cex :
    generate_document_hash (fun s => s) "doc" "new" ≠ "X"
    ∧ ingestDocument (fun s => s) (fun s => [s]) ⟨[⟨0, "doc", "X"⟩], [], 1⟩ "doc" "new"
        = .error "UNIQUE constraint failed: documents.name" := by
  constructor
  · decide
  · rfl

/-- Claim C7 (amended): the content-hash comparison decides whether a
document is already ingested, but the `documents.name` UNIQUE constraint is a
second gate: when the fingerprint differs from every stored hash AND the name
differs from every stored name, the insert succeeds and appends exactly one
document row; a name collision alone can still abort the ingestion. -/
theorem ingest_fresh_succeeds (sha256 : String → String) (sentSplit : String → List String)
    (db : Db) (name content : String)
    (hh : ∀ d ∈ db.documents, d.document_hash ≠ generate_document_hash sha256 name content)
    (hn : ∀ d ∈ db.documents, d.name ≠ name) :
    ingestDocument sha256 sentSplit db name content =
      .ok ({ documents := db.documents ++
               [⟨db.next_id, name, generate_document_hash sha256 name content⟩],
             chunks := db.chunks ++
               (chunk_text (sentSplit content) 500 50).map (fun c => (db.next_id, c)),
             next_id := db.next_id + 1 }, db.next_id) := by
  have hfind : db.documents.find?
      (fun d => d.document_hash = generate_document_hash sha256 name content) = none := by
    rw [List.find?_eq_none]
    intro d hd
    simp only [decide_eq_true_eq]
    exact hh d hd
  have hname : db.documents.any (fun d => d.name = name) = false := by
    rw [List.any_eq_false]
    intro d hd
    simp only [decide_eq_true_eq]
    exact hn d hd
  have hhash : db.documents.any
      (fun d => d.document_hash = generate_document_hash sha256 name content) = false := by
    rw [List.any_eq_false]
    intro d hd
    simp only [decide_eq_true_eq]
    exact hh d hd
  unfold ingestDocument insertDocument
  rw [hfind, hname, hhash]
  rfl

/-- Claim C7 witness: a fresh (hash, name) insert into the empty database
succeeds, with identity stand-ins for the collaborators. -/
theorem ingest_fresh_succeeds_w :
    ingestDocument (fun s => s) (fun s => [s]) ⟨[], [], 0⟩ "doc" "hello" =
      .ok ({ documents := ([] : List DocRow) ++
               [⟨(0 : Nat), "doc", generate_document_hash (fun s => s) "doc" "hello"⟩],
             chunks := ([] : List (Nat × String)) ++
               (chunk_text ((fun s => [s]) "hello") 500 50).map (fun c => ((0 : Nat), c)),
             next_id := 0 + 1 }, 0) :=
  ingest_fresh_succeeds (fun s => s) (fun s => [s]) ⟨[], [], 0⟩ "doc" "hello"
    (by simp) (by simp)

/-- Claim C8: a request whose `question` field is missing is rejected with a
client error (HTTP 400) before any core component runs: the operation trace
is empty and the database is untouched — no text extraction, no
fingerprinting, no chunking, no storage access. -/
theorem missing_question_rejected (sha256 : String → String) (sentSplit : String → List String)
    (sim : String → List String → List ℚ) (gen : String → List String)
    (db : Db) (req : HttpRequest) (h : req.question = none) :
    ((process_and_ask sha256 sentSplit sim gen db req).2.1 = []
      ∧ (process_and_ask sha256 sentSplit sim gen db req).2.2 = db)
    ∧ ∃ msg, (process_and_ask sha256 sentSplit sim gen db req).1 = .clientError 400 msg := by
  obtain ⟨file, question⟩ := req
  simp only at h
  subst h
  cases file with
  | none => exact ⟨⟨rfl, rfl⟩, "Bad Request: missing file part.", rfl⟩
  | some p =>
      obtain ⟨filename, fileText⟩ := p
      exact ⟨⟨rfl, rfl⟩, "Missing question parameter.", rfl⟩

/-- Claim C8 witness: a concrete request carrying a file but no question. -/
theorem missing_question_rejected_w :
    (process_and_ask (fun s => s) (fun s => [s]) simOne (fun _ => [])
        ⟨[], [], 0⟩ ⟨some ("f.pdf", "text"), none⟩).2.1 = []
    ∧ (process_and_ask (fun s => s) (fun s => [s]) simOne (fun _ => [])
        ⟨[], [], 0⟩ ⟨some ("f.pdf", "text"), none⟩).2.2 = (⟨[], [], 0⟩ : Db) :=
  (missing_question_rejected (fun s => s) (fun s => [s]) simOne (fun _ => [])
    ⟨[], [], 0⟩ ⟨some ("f.pdf", "text"), none⟩ rfl).1

/-- Claim C9: in the CLI ask-workflow, `process_pdf` writes only the `chunks`
table while `fetch_all_chunks` reads only the `embeddings` table, so the
fetch result is unchanged by the ingestion; in particular when the
`embeddings` table is empty (no `insert_metadata` call was made), the fetch
after ingesting returns no chunks and the ranking step runs over the empty
candidate list. -/
theorem fetch_all_chunks_misses_ingested (sentSplit : String → List String) (db : CliDb)
    (text : String) (docId : Nat) (sim : String → List String → List ℚ) (q : String) (k : Nat) :
    fetch_all_chunks (process_pdf sentSplit db text docId) = fetch_all_chunks db
    ∧ (db.embeddingsTable = [] →
        fetch_all_chunks (process_pdf sentSplit db text docId) = []
        ∧ rank_chunks_by_similarity sim q
            (fetch_all_chunks (process_pdf sentSplit db text docId)) k = []) := by
  have h1 : fetch_all_chunks (process_pdf sentSplit db text docId) = fetch_all_chunks db := rfl
  refine ⟨h1, fun he => ?_⟩
  have h2 : fetch_all_chunks (process_pdf sentSplit db text docId) = [] := by
    rw [h1]
    unfold fetch_all_chunks
    rw [he]
    rfl
  rw [h2]
  exact ⟨rfl, by simp [rank_chunks_by_similarity]⟩

/-- Claim C9 witness: a concrete ingestion into a database with an empty
`embeddings` table. -/
theorem fetch_all_chunks_misses_ingested_w :
    fetch_all_chunks (process_pdf (fun s => [s]) ⟨[], []⟩ "hello" 0) = []
    ∧ rank_chunks_by_similarity simOne "q"
        (fetch_all_chunks (process_pdf (fun s => [s]) ⟨[], []⟩ "hello" 0)) 5 = [] :=
  (fetch_all_chunks_misses_ingested (fun s => [s]) ⟨[], []⟩ "hello" 0 simOne "q" 5).2 rfl

/-- Claim C4 (code bug evidence): `handle_prompt` relays every fragment to
the sink in producer order but returns Python's `None` — not the
concatenation — so the HTTP endpoint's JSON response carries `null`; the
summarize workflow's loop (`generate_summary`) does accumulate and return
the concatenation "ABC" for the same fragment stream. -/
theorem handle_prompt_returns_none :
    handle_prompt (fun _ => ["A", "B", "C"]) "q" "ctx" = (["A", "B", "C"], none)
    ∧ generate_summary_stream ["A", "B", "C"] = (["A", "B", "C"], "ABC")
    ∧ (handle_prompt (fun _ => ["A", "B", "C"]) "q" "ctx").2 ≠ some "ABC"
    ∧ (process_and_ask (fun s => s) (fun s => [s]) simOne (fun _ => ["A", "B", "C"])
        ⟨[⟨0, "doc", "dochello"⟩], [(0, "hello")], 1⟩ ⟨some ("doc", "hello"), some "q"⟩).1
      = .ok none := by
  decide

/-- Claim C10: the fingerprint digests the byte concatenation of name and
content with no separator, so the distinct pairs ("ab", "c") and ("a", "bc")
feed the identical byte stream to SHA-256 and receive the identical digest,
whatever the digest function is — deduplication can conflate two distinct
documents. -/
theorem document_hash_concat_collision :
    (("ab", "c") : String × String) ≠ ("a", "bc")
    ∧ documentHashInput "ab" "c" = documentHashInput "a" "bc"
    ∧ ∀ sha256 : String → String,
        generate_document_hash sha256 "ab" "c" = generate_document_hash sha256 "a" "bc" := by
  refine ⟨by decide, by decide, fun sha256 => ?_⟩
  unfold generate_document_hash
  exact congrArg sha256 (by decide)
